import Mathlib

/-!
Shallow embedding of the cloudvault cost/optimization engine and lifecycle
policy engine (Go sources: pkg/cost/calculator.go, the pricing provider and
optimizer files of package cost, pkg/types/types.go,
pkg/orchestrator/lifecycle/engine.go, controller.go, recommender.go).

Conventions of the embedding:
- Go float64 money/IOPS arithmetic is embedded as exact rational arithmetic
  (Rat); the spec speaks of exact decimal amounts.
- Go time.Time values are rationals counting nanoseconds since the Go zero
  time; the zero time is 0 (time.Time.IsZero becomes equality with 0).
  time.Duration values are integers (nanoseconds), as in Go.
- Go maps used as constant lookup tables are association lists with
  first-match lookup (keys are unique in the sources).
- Mutation of a metric through a pointer is embedded as explicit state
  passing: a function that mutates its argument returns the updated value.
- The clock (time.Now / time.Since) is passed in explicitly as a rational
  timestamp argument named now.
- String formatting of floats with a fixed precision is embedded by exact
  half-even rounding of the rational; apostrophes inside Go message strings
  are written as plain words.
-/

namespace CloudVault

/-- First-match lookup in an association list, embedding a Go map read
(`v, ok := m[k]`). -/
def mapLookup {α : Type} (l : List (String × α)) (k : String) : Option α :=
  match l with
  | [] => none
  | (k₂, v) :: rest => if k = k₂ then some v else mapLookup rest k

/-- `m[k] += v` on a Go map embedded as an association list: add to the
entry if present, otherwise append a fresh entry holding `v`. -/
def mapAdd (l : List (String × ℚ)) (k : String) (v : ℚ) : List (String × ℚ) :=
  match l with
  | [] => [(k, v)]
  | (k₂, w) :: rest => if k = k₂ then (k₂, w + v) :: rest else (k₂, w) :: mapAdd rest k v

/-- StorageClassPricing from pkg/cost/calculator.go: per-GB-month price,
per-IOPS price, and whether IOPS are provisioned. -/
structure StorageClassPricing where
  perGBMonth : ℚ
  perIOPS : ℚ
  provisioned : Bool
deriving DecidableEq, Repr, Inhabited

/-- The hardcoded pricing table built by initializePricing (key format
`provider-storageclass`). -/
def pricingData : List (String × StorageClassPricing) :=
  [ ("aws-gp3", ⟨8/100, 5/1000, true⟩),
    ("aws-gp2", ⟨10/100, 0, false⟩),
    ("aws-io1", ⟨125/1000, 65/1000, true⟩),
    ("aws-io2", ⟨125/1000, 65/1000, true⟩),
    ("aws-st1", ⟨45/1000, 0, false⟩),
    ("aws-sc1", ⟨25/1000, 0, false⟩),
    ("gcp-standard", ⟨4/100, 0, false⟩),
    ("gcp-pd-standard", ⟨4/100, 0, false⟩),
    ("gcp-balanced", ⟨10/100, 0, false⟩),
    ("gcp-pd-balanced", ⟨10/100, 0, false⟩),
    ("gcp-ssd", ⟨17/100, 0, false⟩),
    ("gcp-pd-ssd", ⟨17/100, 0, false⟩),
    ("gcp-pd-extreme", ⟨125/1000, 5/100, true⟩),
    ("azure-standard-hdd", ⟨45/1000, 0, false⟩),
    ("azure-standard-ssd", ⟨75/1000, 0, false⟩),
    ("azure-premium", ⟨12/100, 0, false⟩),
    ("azure-premium-v2", ⟨8/100, 5/1000, true⟩),
    ("azure-ultra", ⟨15/100, 10/100, true⟩),
    ("azure-managed-premium", ⟨12/100, 0, false⟩),
    ("unknown-default", ⟨10/100, 0, false⟩) ]

/-- The Go zero value of StorageClassPricing, produced by a read of a
missing key on the final map access in GetPrice. -/
def zeroPricing : StorageClassPricing := ⟨0, 0, false⟩

/-- StaticPricingProvider.GetPrice: exact `provider-storageclass` key,
then `provider-default`, then the `unknown-default` entry (a missing final
entry would yield the Go zero value). The region argument is ignored by
the static provider. -/
def getPrice (provider storageClass region : String) : StorageClassPricing :=
  match mapLookup pricingData (provider ++ "-" ++ storageClass) with
  | some pricing => pricing
  | none =>
    match mapLookup pricingData (provider ++ "-default") with
    | some pricing => pricing
    | none => (mapLookup pricingData "unknown-default").getD zeroPricing

/-- The three-level fallback chain of GetPrice, Option-valued: exact key,
else provider-level default, else the single global default. Written to
state the fallback contract of the spec; getPrice is its total version. -/
def getPriceOpt (provider storageClass region : String) : Option StorageClassPricing :=
  (mapLookup pricingData (provider ++ "-" ++ storageClass)).orElse fun _ =>
    (mapLookup pricingData (provider ++ "-default")).orElse fun _ =>
      mapLookup pricingData "unknown-default"

/-- PVCMetric from pkg/types/types.go. The Go field Namespace is named
nspace here (namespace is a Lean keyword). Timestamps are rationals in
nanoseconds since the Go zero time (0 = unset). -/
structure PVCMetric where
  name : String
  nspace : String
  clusterID : String
  provider : String
  region : String
  storageClass : String
  sizeBytes : ℤ
  usedBytes : ℤ
  egressBytes : ℕ
  readIOPS : ℚ
  writeIOPS : ℚ
  readThroughput : ℚ
  writeThroughput : ℚ
  hourlyCost : ℚ
  monthlyCost : ℚ
  mountedPods : List String
  createdAt : ℚ
  lastAccessedAt : ℚ
  labels : List (String × String)
  annotations : List (String × String)
deriving DecidableEq, Repr

instance : Inhabited PVCMetric :=
  ⟨⟨"", "", "", "", "", "", 0, 0, 0, 0, 0, 0, 0, 0, 0, [], 0, 0, [], []⟩⟩

namespace PVCMetric

/-- SizeGB: size in gigabytes. -/
def sizeGB (p : PVCMetric) : ℚ := (p.sizeBytes : ℚ) / (1024 * 1024 * 1024)

/-- UsedGB: used space in gigabytes. -/
def usedGB (p : PVCMetric) : ℚ := (p.usedBytes : ℚ) / (1024 * 1024 * 1024)

/-- UsagePercent: percentage of the space used, 0 when the size is 0. -/
def usagePercent (p : PVCMetric) : ℚ :=
  if p.sizeBytes = 0 then 0 else ((p.usedBytes : ℚ) / (p.sizeBytes : ℚ)) * 100

/-- TotalIOPS: read plus write IOPS. -/
def totalIOPS (p : PVCMetric) : ℚ := p.readIOPS + p.writeIOPS

/-- IsZombie: false when the last-access timestamp is unset, otherwise
whether more than 30 days passed since the last access. The duration
since the access is converted to hours (division by 3600 * 10^9
nanoseconds) and then to days, as in the source. -/
def isZombie (now : ℚ) (p : PVCMetric) : Bool :=
  if p.lastAccessedAt = 0 then false
  else decide (((now - p.lastAccessedAt) / (3600 * 1000000000)) / 24 > 30)

end PVCMetric

/-- CalculatePVCCost: (size in GB x per-GB-month price) plus, when the
class is provisioned and total IOPS exceed the 3000 baseline, the excess
IOPS priced per IOPS. Returns the cost and the metric with the cost
stamped onto its monthly-cost field. Uses the default static pricing
provider and the us-east-1 region, as in the source. -/
def calculatePVCCost (metric : PVCMetric) (provider : String) : ℚ × PVCMetric :=
  let pricing := getPrice provider metric.storageClass "us-east-1"
  let sizeGB : ℚ := (metric.sizeBytes : ℚ) / (1024 * 1024 * 1024)
  let storageCost := sizeGB * pricing.perGBMonth
  let iopsCost : ℚ :=
    if pricing.provisioned ∧ metric.totalIOPS > 3000 then
      (metric.totalIOPS - 3000) * pricing.perIOPS
    else 0
  let cost := storageCost + iopsCost
  (cost, { metric with monthlyCost := cost })

/-- EstimateSavings: cost under the current class minus the cost of a copy
with the target class substituted. The first cost calculation stamps the
original metric; the copy is stamped separately and discarded. Returns the
savings and the final state of the original metric. -/
def estimateSavings (metric : PVCMetric) (provider newStorageClass : String) :
    ℚ × PVCMetric :=
  let r₁ := calculatePVCCost metric provider
  let currentCost := r₁.1
  let metric₁ := r₁.2
  let testMetric := { metric₁ with storageClass := newStorageClass }
  let newCost := (calculatePVCCost testMetric provider).1
  (currentCost - newCost, metric₁)

/-- CalculateEgressCost: free within the same cloud and region, 0.02/GB
across regions of one cloud, 0.09/GB across clouds. -/
def calculateEgressCost (bytes : ℤ) (srcCloud srcRegion dstCloud dstRegion : String) : ℚ :=
  let gb : ℚ := (bytes : ℚ) / (1024 * 1024 * 1024)
  if srcCloud = dstCloud ∧ srcRegion = dstRegion then 0
  else if srcCloud = dstCloud then gb * (2/100)
  else gb * (9/100)

/-- Half-even rounding of a nonnegative rational to a natural number,
the rounding used by Go fixed-precision float formatting. -/
def roundHalfEven (q : ℚ) : ℕ :=
  let fl := (⌊q⌋).toNat
  let fr := q - ⌊q⌋
  if fr > 1/2 then fl + 1
  else if fr < 1/2 then fl
  else if fl % 2 = 0 then fl else fl + 1

/-- Fixed-precision decimal formatting of a rational, embedding a Go
`%.<prec>f` verb (half-even rounding at the last kept digit). -/
def formatFixed (prec : ℕ) (q : ℚ) : String :=
  let neg := decide (q < 0)
  let n := roundHalfEven (|q| * 10 ^ prec)
  let ip := n / 10 ^ prec
  let fp := n % 10 ^ prec
  let fs := toString fp
  let fpad := String.mk (List.replicate (prec - fs.length) '0') ++ fs
  (if neg then "-" else "") ++ toString ip ++ (if prec = 0 then "" else "." ++ fpad)

/-- FormatCost: a dollar sign followed by the cost at two decimals. -/
def formatCost (cost : ℚ) : String := "$" ++ formatFixed 2 cost

/-- Recommendation from pkg/types/types.go (Namespace is named nspace). -/
structure Recommendation where
  type : String
  pvc : String
  nspace : String
  currentState : String
  recommendedState : String
  monthlySavings : ℚ
  reasoning : String
  impact : String
deriving DecidableEq, Repr, Inhabited

/-- checkZombieVolume: abstains when the last-access timestamp is unset;
otherwise recommends deletion when the volume was not accessed for more
than 30 days, with the full current monthly cost as savings and low
impact. -/
def checkZombieVolume (now : ℚ) (m : PVCMetric) : Option Recommendation :=
  if m.lastAccessedAt = 0 then none
  else
    let daysSinceAccess := ((now - m.lastAccessedAt) / (3600 * 1000000000)) / 24
    if daysSinceAccess > 30 then
      some { type := "delete_zombie", pvc := m.name, nspace := m.nspace,
             currentState := "Unused for " ++ formatFixed 0 daysSinceAccess ++ " days",
             recommendedState := "Delete volume",
             monthlySavings := m.monthlyCost,
             reasoning := "Volume has not been accessed in " ++ formatFixed 0 daysSinceAccess
               ++ " days. Consider backing up and deleting.",
             impact := "low" }
    else none

/-- determineImpact: impact of a storage class change given current IOPS. -/
def determineImpact (currentIOPS : ℚ) (targetClass : String) : String :=
  if targetClass = "sc1" ∨ targetClass = "st1" ∨ targetClass = "pd-standard" then
    if currentIOPS > 100 then "medium" else "low"
  else if targetClass = "gp3" ∨ targetClass = "pd-balanced" ∨ targetClass = "standard" then
    if currentIOPS > 2000 then "medium" else "low"
  else "low"

/-- checkStorageClassOptimization: stamps the cost onto the metric, then
walks the provider-specific decision tables over the (possibly
provider-prefix-stripped) storage class name and the observed total IOPS;
when a cheaper target class is found and the estimated savings exceed
0.50/month, emits a storage_class recommendation. The Go locals sc,
targetClass and reasoning are threaded through the per-provider blocks as
triples. Returns the recommendation (if any) and the final state of the
metric (mutated by the cost stampings). -/
def checkStorageClassOptimization (m₀ : PVCMetric) (provider : String) :
    Option Recommendation × PVCMetric :=
  let m := (calculatePVCCost m₀ provider).2
  let totalIOPS := m.totalIOPS
  let sc₀ := m.storageClass
  let awsStep : String × String × String :=
    if provider = "aws" ∨ (provider = "unknown" ∧ sc₀.length > 4 ∧ sc₀.take 4 = "aws-") then
      let sc := if sc₀.length > 4 ∧ sc₀.take 4 = "aws-" then sc₀.drop 4 else sc₀
      if sc = "gp3" ∨ sc = "gp2" then
        if totalIOPS < 500 then
          (sc, "sc1", "Low IOPS usage (" ++ formatFixed 0 totalIOPS
            ++ "). Cold HDD storage is 70% cheaper for infrequently accessed data.")
        else if totalIOPS < 1000 then
          (sc, "st1", "Low IOPS usage (" ++ formatFixed 0 totalIOPS
            ++ "). Throughput-optimized HDD is 55% cheaper.")
        else (sc, "", "")
      else if sc = "io1" ∨ sc = "io2" then
        if totalIOPS < 3000 then
          (sc, "gp3", "IOPS usage (" ++ formatFixed 0 totalIOPS
            ++ ") does not justify provisioned IOPS. gp3 provides 3,000 baseline IOPS.")
        else (sc, "", "")
      else (sc, "", "")
    else (sc₀, "", "")
  let sc₁ := awsStep.1
  let t₁ := awsStep.2.1
  let r₁ := awsStep.2.2
  let gcpStep : String × String × String :=
    if (provider = "gcp" ∧ t₁ = "") ∨ (provider = "unknown" ∧ sc₁.length > 4 ∧ sc₁.take 4 = "gcp-") then
      let sc := if sc₁.length > 4 ∧ sc₁.take 4 = "gcp-" then sc₁.drop 4 else sc₁
      if sc = "pd-ssd" ∨ sc = "ssd" then
        if totalIOPS < 1000 then
          (sc, "pd-balanced", "Low IOPS usage (" ++ formatFixed 0 totalIOPS
            ++ "). Balanced persistent disk is 41% cheaper.")
        else (sc, t₁, r₁)
      else if sc = "pd-balanced" ∨ sc = "balanced" then
        if totalIOPS < 500 then
          (sc, "pd-standard", "Very low IOPS usage (" ++ formatFixed 0 totalIOPS
            ++ "). Standard persistent disk is 60% cheaper.")
        else (sc, t₁, r₁)
      else (sc, t₁, r₁)
    else (sc₁, t₁, r₁)
  let sc₂ := gcpStep.1
  let t₂ := gcpStep.2.1
  let r₂ := gcpStep.2.2
  let azStep : String × String × String :=
    if (provider = "azure" ∧ t₂ = "") ∨ (provider = "unknown" ∧ sc₂.length > 6 ∧ sc₂.take 6 = "azure-") then
      let sc := if sc₂.length > 6 ∧ sc₂.take 6 = "azure-" then sc₂.drop 6 else sc₂
      if sc = "premium" ∨ sc = "managed-premium" then
        if totalIOPS < 1000 then
          (sc, "standard", "Low IOPS usage (" ++ formatFixed 0 totalIOPS
            ++ "). Standard storage is 62% cheaper.")
        else (sc, t₂, r₂)
      else (sc, t₂, r₂)
    else (sc₂, t₂, r₂)
  let targetClass := azStep.2.1
  let reasoning := azStep.2.2
  if targetClass ≠ "" then
    let effectiveProvider :=
      if provider = "unknown" then
        if m.storageClass.length > 4 ∧ m.storageClass.take 4 = "aws-" then "aws"
        else if m.storageClass.length > 4 ∧ m.storageClass.take 4 = "gcp-" then "gcp"
        else if m.storageClass.length > 6 ∧ m.storageClass.take 6 = "azure-" then "azure"
        else provider
      else provider
    let es := estimateSavings m effectiveProvider targetClass
    let savings := es.1
    let m₂ := es.2
    if savings > 1/2 then
      (some { type := "storage_class", pvc := m.name, nspace := m.nspace,
              currentState := m.storageClass, recommendedState := targetClass,
              monthlySavings := savings, reasoning := reasoning,
              impact := determineImpact totalIOPS targetClass }, m₂)
    else (none, m₂)
  else (none, m)

/-- checkOversizedVolume: abstains without usage data; for volumes above
50 GB that are under 20% utilized, proposes 1.5 x used capacity (at least
10 GB) and a proportional cost saving, with medium impact. -/
def checkOversizedVolume (m : PVCMetric) : Option Recommendation :=
  if m.usedBytes = 0 then none
  else
    let utilizationPercent := m.usagePercent
    if utilizationPercent < 20 ∧ m.sizeGB > 50 then
      let recommendedSizeGB := if m.usedGB * (3/2) < 10 then 10 else m.usedGB * (3/2)
      let currentCost := m.monthlyCost
      let estimatedNewCost := currentCost * (recommendedSizeGB / m.sizeGB)
      let savings := currentCost - estimatedNewCost
      some { type := "resize", pvc := m.name, nspace := m.nspace,
             currentState := formatFixed 0 m.sizeGB ++ "GB (" ++ formatFixed 1 utilizationPercent ++ "% used)",
             recommendedState := formatFixed 0 recommendedSizeGB ++ "GB",
             monthlySavings := savings,
             reasoning := "Volume is only " ++ formatFixed 1 utilizationPercent
               ++ "% utilized. Consider resizing to " ++ formatFixed 0 recommendedSizeGB ++ "GB.",
             impact := "medium" }
    else none

/-- checkCrossCloudMigration: for AWS resources above a 50/month cost
floor, compares against GCP pd-standard in us-central1 and recommends a
cross-cloud move (impact high) when the monthly savings exceed 10 and
three months of savings exceed the one-time egress cost. -/
def checkCrossCloudMigration (m : PVCMetric) : Option Recommendation :=
  if m.provider = "" ∨ m.region = "" then none
  else if m.provider = "aws" ∧ m.monthlyCost > 50 then
    let gcpPrice := getPrice "gcp" "pd-standard" "us-central1"
    let gcpMonthlyCost := m.sizeGB * gcpPrice.perGBMonth + m.totalIOPS * gcpPrice.perIOPS
    let monthlySavings := m.monthlyCost - gcpMonthlyCost
    if monthlySavings > 10 then
      let egressCost := calculateEgressCost m.sizeBytes m.provider m.region "gcp" "us-central1"
      if monthlySavings * 3 > egressCost then
        some { type := "move_cloud", pvc := m.name, nspace := m.nspace,
               currentState := m.provider ++ " (" ++ m.region ++ ")",
               recommendedState := "gcp (us-central1)",
               monthlySavings := monthlySavings,
               reasoning := "Cross-cloud migration saves " ++ formatCost monthlySavings
                 ++ "/month. One-time transfer cost (" ++ formatCost egressCost
                 ++ ") recouped in " ++ formatFixed 1 (egressCost / monthlySavings) ++ " months.",
               impact := "high" }
      else none
    else none
  else none

/-- Insertion of a recommendation into a savings-descending list; the
building block of the embedded savings sort. -/
def insertBySavings (r : Recommendation) : List Recommendation → List Recommendation
  | [] => [r]
  | s :: rest =>
    if r.monthlySavings > s.monthlySavings then r :: s :: rest else s :: insertBySavings r rest

/-- The sort by monthly savings, descending, applied to the merged
recommendation list (the source sorts with an unstable comparison-based
sort; tie order is unspecified there). -/
def sortBySavings (l : List Recommendation) : List Recommendation :=
  l.foldr insertBySavings []

/-- The per-resource detector battery of GenerateRecommendations: the
zombie check (before any cost stamping), the storage-class check (which
stamps the cost), the forecast-gated oversize check, and the learned
placement check. The placement and forecast oracles stand for the RL
agent call and the cost forecaster call. Returns the recommendations of
this resource in emission order. -/
def processMetricRecs (placement : String → List String → String)
    (forecast : ℚ → List ℚ → ℚ) (now : ℚ) (provider : String) (m₀ : PVCMetric) :
    List Recommendation :=
  let zl := (checkZombieVolume now m₀).toList
  let scr := checkStorageClassOptimization m₀ provider
  let m₁ := scr.2
  let scl := scr.1.toList
  let futureCost := forecast m₁.monthlyCost [1/10, 2/10, 15/100]
  let ovl :=
    if futureCost > m₁.monthlyCost * (12/10) then
      match checkOversizedVolume m₁ with
      | some r => [{ r with
          reasoning := "[AI Predict] " ++ r.reasoning ++ " (Predicted growth: +20%)",
          impact := "high" }]
      | none => []
    else (checkOversizedVolume m₁).toList
  let bestClass := placement "standard_workload" ["gp3", "sc1", "st1"]
  let rll :=
    if bestClass ≠ m₁.storageClass ∧ m₁.storageClass = "gp2" then
      [{ type := "ai_placement", pvc := m₁.name, nspace := m₁.nspace,
         currentState := m₁.storageClass, recommendedState := bestClass,
         monthlySavings := 5/2,
         reasoning := "[RL Decision] Learned optimal placement for this workload pattern.",
         impact := "low" }]
    else []
  zl ++ scl ++ ovl ++ rll

/-- GenerateRecommendations: runs the per-resource battery over every
metric, merges the findings and sorts them by savings descending. -/
def generateRecommendations (placement : String → List String → String)
    (forecast : ℚ → List ℚ → ℚ) (now : ℚ) (metrics : List PVCMetric)
    (provider : String) : List Recommendation :=
  sortBySavings ((metrics.map (processMetricRecs placement forecast now provider)).flatten)

/-- Element of a list at an index, with a default for out-of-range
(embedding a Go slice read; the loops below stay in range). -/
def nthD {α : Type} : List α → ℕ → α → α
  | [], _, d => d
  | a :: _, 0, _ => a
  | _ :: t, n + 1, d => nthD t n d

/-- Replacing the element at an index (embedding a Go slice write;
out-of-range writes do not occur in the loops below). -/
def setN {α : Type} : List α → ℕ → α → List α
  | [], _, _ => []
  | _ :: t, 0, x => x :: t
  | a :: t, n + 1, x => a :: setN t n x

/-- The Go parallel assignment `l[i], l[j] = l[j], l[i]`. -/
def swapN {α : Type} [Inhabited α] (l : List α) (i j : ℕ) : List α :=
  setN (setN l i (nthD l j default)) j (nthD l i default)

/-- CostSummary from pkg/types/types.go, maps as association lists. -/
structure CostSummary where
  totalMonthlyCost : ℚ
  byNamespace : List (String × ℚ)
  byStorageClass : List (String × ℚ)
  byProvider : List (String × ℚ)
  byCluster : List (String × ℚ)
  topExpensive : List PVCMetric
  zombieVolumes : List PVCMetric
  budgetLimit : ℚ
  activeAlerts : List String
deriving DecidableEq, Repr

/-- The first loop of GenerateSummary: stamps monthly and hourly cost onto
every metric, accumulates the per-namespace / per-storage-class /
per-provider / per-cluster totals (with the default labels for missing
provider and cluster fields) and collects zombies. Returns the summary
and the stamped metrics in order. -/
def summaryPass (now : ℚ) (provider : String) :
    List PVCMetric → CostSummary → CostSummary × List PVCMetric
  | [], s => (s, [])
  | m :: rest, s =>
    let cost := (calculatePVCCost m provider).1
    let m' := { m with monthlyCost := cost, hourlyCost := cost / (24 * 30) }
    let p := if m'.provider = "" then provider else m'.provider
    let cid := if m'.clusterID = "" then "default-cluster" else m'.clusterID
    let s' : CostSummary := { s with
      totalMonthlyCost := s.totalMonthlyCost + cost,
      byNamespace := mapAdd s.byNamespace m'.nspace cost,
      byStorageClass := mapAdd s.byStorageClass m'.storageClass cost,
      byProvider := mapAdd s.byProvider p cost,
      byCluster := mapAdd s.byCluster cid cost,
      zombieVolumes := s.zombieVolumes ++ (if m'.isZombie now then [m'] else []) }
    let r := summaryPass now provider rest s'
    (r.1, m' :: r.2)

/-- The inner loop of the top-N selection in GenerateSummary: the index of
a maximal monthly cost over positions `maxIdx` and `j ..`, scanning
upward and moving on strict improvement. -/
def maxIdxFrom (l : List PVCMetric) (j maxIdx : ℕ) : ℕ :=
  if h : j < l.length then
    if (nthD l j default).monthlyCost > (nthD l maxIdx default).monthlyCost then
      maxIdxFrom l (j + 1) j
    else maxIdxFrom l (j + 1) maxIdx
  else maxIdx
termination_by l.length - j

/-- The outer selection loop of GenerateSummary: for each position `i`
below the top count, swaps a maximal remaining element into place and
appends it to the running top-expensive list. Returns the final slice
state and the top list. -/
def selectLoop (topCount : ℕ) (l : List PVCMetric) (top : List PVCMetric) (i : ℕ) :
    List PVCMetric × List PVCMetric :=
  if h : i < topCount ∧ i < l.length then
    let mIdx := maxIdxFrom l (i + 1) i
    let l₂ := swapN l i mIdx
    selectLoop topCount l₂ (top ++ [nthD l₂ i default]) (i + 1)
  else (l, top)
termination_by topCount - i
decreasing_by omega

/-- GenerateSummary: the aggregation pass followed by the in-place
partial selection sort selecting the top min(10, n) expensive metrics.
Returns the summary and the final state of the caller's metrics slice. -/
def generateSummary (now : ℚ) (metrics : List PVCMetric) (provider : String) :
    CostSummary × List PVCMetric :=
  let s₀ : CostSummary := ⟨0, [], [], [], [], [], [], 0, []⟩
  let r₁ := summaryPass now provider metrics s₀
  let metrics₁ := r₁.2
  let topCount := if metrics₁.length < 10 then metrics₁.length else 10
  let r₂ := selectLoop topCount metrics₁ [] 0
  ({ r₁.1 with topExpensive := r₂.2 }, r₂.1)

/-- PolicySelector from the v1alpha1 API types. -/
structure PolicySelector where
  matchLabels : List (String × String)
  matchNamespaces : List String
deriving DecidableEq, Repr

/-- StorageTier from the v1alpha1 API types: name, target storage class
and a duration threshold in string form. -/
structure StorageTier where
  name : String
  storageClass : String
  duration : String
deriving DecidableEq, Repr, Inhabited

/-- StorageLifecyclePolicySpec from the v1alpha1 API types. -/
structure PolicySpec where
  selector : PolicySelector
  tiers : List StorageTier
  autoDelete : Bool
deriving DecidableEq, Repr

/-- StorageLifecyclePolicy (its object-metadata name and its spec). -/
structure StorageLifecyclePolicy where
  name : String
  spec : PolicySpec
deriving DecidableEq, Repr

/-- The namespace clause of a selector as computed by Match: an empty
namespace list matches everything, otherwise the resource namespace must
be listed. -/
def nsMatches (policy : StorageLifecyclePolicy) (pvc : PVCMetric) : Bool :=
  if policy.spec.selector.matchNamespaces = [] then true
  else policy.spec.selector.matchNamespaces.contains pvc.nspace

/-- The label clause of a selector as computed by Match: every
label-equality constraint must be satisfied by the resource labels. -/
def labelsMatch (policy : StorageLifecyclePolicy) (pvc : PVCMetric) : Bool :=
  policy.spec.selector.matchLabels.all fun kv =>
    match mapLookup pvc.labels kv.1 with
    | some val => val = kv.2
    | none => false

/-- PolicyEngine.Match: the first policy in stored order whose namespace
clause and label clause both hold for the resource. -/
def matchPolicy (policies : List StorageLifecyclePolicy) (pvc : PVCMetric) :
    Option StorageLifecyclePolicy :=
  match policies with
  | [] => none
  | policy :: rest =>
    if ¬ nsMatches policy pvc then matchPolicy rest pvc
    else if labelsMatch policy pvc then some policy
    else matchPolicy rest pvc

/-- Digits taken greedily from the front of a character list. -/
def takeDigits : List Char → List Char × List Char
  | [] => ([], [])
  | c :: rest =>
    if c.isDigit then
      let r := takeDigits rest
      (c :: r.1, r.2)
    else ([], c :: rest)

/-- Decimal value of a digit list. -/
def digitsToNat (ds : List Char) : ℕ :=
  ds.foldl (fun acc c => acc * 10 + (c.toNat - 48)) 0

/-- The day-count scan of ParseDuration, embedding
`fmt.Sscanf(durStr, "%dd", &days)`: leading spaces are skipped, an
optional sign and at least one digit are read, the next character must be
the literal d, and any remaining input is ignored (Sscanf does not require
the input to be fully consumed). An integer too large for int64 is a scan
error. -/
def scanDays (cs : List Char) : Option ℤ :=
  let cs₁ := cs.dropWhile fun c => c = ' ' ∨ c = '\t'
  let sn : ℤ × List Char :=
    match cs₁ with
    | '-' :: r => (-1, r)
    | '+' :: r => (1, r)
    | _ => (1, cs₁)
  let td := takeDigits sn.2
  if td.1 = [] then none
  else if digitsToNat td.1 > 2 ^ 63 - 1 then none
  else
    match td.2 with
    | 'd' :: _ => some (sn.1 * digitsToNat td.1)
    | _ => none

/-- The unit table of Go time.ParseDuration, in nanoseconds. -/
def unitNanos (u : List Char) : Option ℕ :=
  if u = ['n', 's'] then some 1
  else if u = ['u', 's'] then some 1000
  else if u = ['µ', 's'] then some 1000
  else if u = ['μ', 's'] then some 1000
  else if u = ['m', 's'] then some 1000000
  else if u = ['s'] then some 1000000000
  else if u = ['m'] then some 60000000000
  else if u = ['h'] then some 3600000000000
  else none

/-- The main loop of Go time.ParseDuration over the sign-stripped input:
repeatedly reads an integer part, an optional fraction and a unit,
accumulating nanoseconds. Out-of-range values are errors, as in Go. The
fractional contribution is computed exactly here (Go uses float64
arithmetic for it); no claim below involves fractional durations. The
fuel argument only bounds the recursion and exceeds the input length on
every call. -/
def goDurLoop (fuel : ℕ) (cs : List Char) (acc : ℕ) : Except String ℕ :=
  match fuel with
  | 0 => .error "time: invalid duration"
  | fuel + 1 =>
    match cs with
    | [] => .ok acc
    | c :: _ =>
      if ¬ (c = '.' ∨ c.isDigit) then .error "time: invalid duration"
      else
        let intPart := takeDigits cs
        let v := digitsToNat intPart.1
        if v > 2 ^ 63 - 1 then .error "time: invalid duration"
        else
          let hasInt := ¬ intPart.1.isEmpty
          let afterDot :=
            match intPart.2 with
            | '.' :: r => some (takeDigits r)
            | _ => none
          let f : ℕ := match afterDot with | some fd => digitsToNat fd.1 | none => 0
          let scale : ℕ := match afterDot with | some fd => 10 ^ fd.1.length | none => 1
          let hasFrac : Bool := match afterDot with | some fd => ¬ fd.1.isEmpty | none => false
          let rest₀ := match afterDot with | some fd => fd.2 | none => intPart.2
          if ¬ hasInt ∧ ¬ hasFrac then .error "time: invalid duration"
          else
            let unitSpan := rest₀.span fun ch => ¬ (ch = '.' ∨ ch.isDigit)
            if unitSpan.1.isEmpty then .error "time: missing unit in duration"
            else
              match unitNanos unitSpan.1 with
              | none => .error "time: unknown unit in duration"
              | some unit =>
                if v > (2 ^ 63 - 1) / unit then .error "time: invalid duration"
                else
                  let acc₂ := acc + (v * unit + f * unit / scale)
                  if acc₂ > 2 ^ 63 - 1 then .error "time: invalid duration"
                  else goDurLoop fuel unitSpan.2 acc₂

/-- Go time.ParseDuration: optional sign, the special case 0, empty input
rejected, then the unit loop; the sign is applied at the end. -/
def goParseDuration (cs : List Char) : Except String ℤ :=
  let sn : Bool × List Char :=
    match cs with
    | '-' :: r => (true, r)
    | '+' :: r => (false, r)
    | _ => (false, cs)
  if sn.2 = ['0'] then .ok 0
  else if sn.2 = [] then .error "time: invalid duration"
  else
    match goDurLoop (sn.2.length + 1) sn.2 0 with
    | .error e => .error e
    | .ok d => .ok (if sn.1 then -(d : ℤ) else (d : ℤ))

/-- Wraparound of a signed 64-bit product, as in Go int64 arithmetic. -/
def wrap64 (x : ℤ) : ℤ := (x + 2 ^ 63) % 2 ^ 64 - 2 ^ 63

/-- ParseDuration from the lifecycle engine: the empty string is an
error; a string ending in d goes through the day-count scan (days times
24 hours, in int64 arithmetic); anything else goes to the standard
duration parser. -/
def parseDuration (s : String) : Except String ℤ :=
  let cs := s.data
  if cs.length = 0 then .error "empty duration"
  else if cs.getLast? = some 'd' then
    match scanDays cs with
    | some days => .ok (wrap64 (days * 24 * 3600 * 1000000000))
    | none => .error ("invalid days format: " ++ s)
  else goParseDuration cs

/-- The current-tier scan of Evaluate: the index of the first tier whose
storage class equals the resource class, counting from `i`; -1 when none
matches. -/
def findCurrentTierIdx : List StorageTier → String → ℕ → ℤ
  | [], _, _ => -1
  | t :: rest, sc, i => if t.storageClass = sc then (i : ℤ) else findCurrentTierIdx rest sc (i + 1)

/-- The target-tier scan of Evaluate: indices are inspected downward from
`n - 1`; a tier whose parsed duration has elapsed stops the scan, an
unparseable duration aborts with the wrapped error. -/
def findTargetTier (tiers : List StorageTier) (policyName : String) (pvcAge : ℚ) :
    ℕ → Except String (Option ℕ)
  | 0 => .ok none
  | n + 1 =>
    let tier := nthD tiers n default
    match parseDuration tier.duration with
    | .error e =>
      .error ("invalid duration " ++ tier.duration ++ " in policy " ++ policyName ++ ": " ++ e)
    | .ok dur =>
      if pvcAge > (dur : ℚ) then .ok (some n)
      else findTargetTier tiers policyName pvcAge n

/-- PolicyEngine.Evaluate: with no policy there is nothing to do;
otherwise the most advanced age-eligible tier is found and returned
exactly when its index exceeds the current tier index. When no tier is
eligible the target index is -1, which never exceeds the current index
(the current index is at least -1), so the toNat read below is never
reached with -1. -/
def evaluate (now : ℚ) (pvc : PVCMetric) (policy : Option StorageLifecyclePolicy) :
    Except String (Option StorageTier) :=
  match policy with
  | none => .ok none
  | some policy =>
    let pvcAge := now - pvc.createdAt
    let currentTierIndex := findCurrentTierIdx policy.spec.tiers pvc.storageClass 0
    match findTargetTier policy.spec.tiers policy.name pvcAge policy.spec.tiers.length with
    | .error e => .error e
    | .ok targetOpt =>
      let targetTierIndex : ℤ := targetOpt.elim (-1) fun n => (n : ℤ)
      if targetTierIndex > currentTierIndex then
        .ok (some (nthD policy.spec.tiers targetTierIndex.toNat default))
      else .ok none

/-- FormatQuantity: Gi for at least 1 GiB, Mi for at least 1 MiB, raw
byte count otherwise (Go integer division truncates toward zero). -/
def formatQuantity (bytes : ℤ) : String :=
  if bytes ≥ 1024 * 1024 * 1024 then toString (bytes.tdiv (1024 * 1024 * 1024)) ++ "Gi"
  else if bytes ≥ 1024 * 1024 then toString (bytes.tdiv (1024 * 1024)) ++ "Mi"
  else toString bytes

/-- AnomalyEngine.IsZombie: false on an empty history, otherwise true
exactly when no sample exceeds 5% utilization. -/
def anomalyIsZombie (utilizationHistory : List ℚ) : Bool :=
  match utilizationHistory with
  | [] => false
  | _ => utilizationHistory.all fun util => ¬ (util > 1/20)

/-- OptimizationRecommendation from the lifecycle recommender. -/
structure OptimizationRecommendation where
  targetClass : String
  targetTier : String
  targetSize : String
  reason : String
  confidence : ℚ
deriving DecidableEq, Repr

/-- IntelligentRecommender.Recommend. The RL placement call and the
time-series history read are external collaborators (a learned agent and
a database); they enter as the function parameters placement and
histOracle, the latter returning the history when the read succeeds with
a nonempty result. The 1.5 x used-bytes suggestion is an int64 cast of a
float64 product in Go, embedded as exact truncated division. -/
def recommend (placement : String → List String → String)
    (histOracle : String → String → Option (List ℚ))
    (pvc : PVCMetric) (policy : StorageLifecyclePolicy) :
    Option OptimizationRecommendation :=
  let _ := policy
  let usageRatio : ℚ :=
    if pvc.sizeBytes > 0 then (pvc.usedBytes : ℚ) / (pvc.sizeBytes : ℚ) else 0
  let workloadType := if pvc.egressBytes > 1024 * 1024 * 100 then "high-egress" else "standard"
  let optimizedClass := placement workloadType ["standard", "sc1", "gp3", "io2"]
  let rec₀ : OptimizationRecommendation :=
    { targetClass := optimizedClass, targetTier := "hot",
      targetSize := formatQuantity pvc.sizeBytes, reason := "", confidence := 85/100 }
  if usageRatio < 3/10 ∧ pvc.sizeBytes > 10 * 1024 * 1024 * 1024 then
    let suggestedSize := (3 * pvc.usedBytes).tdiv 2
    let minSize : ℤ := 1024 * 1024 * 1024
    let suggestedSize := if suggestedSize < minSize then minSize else suggestedSize
    some { rec₀ with
      targetSize := formatQuantity suggestedSize,
      reason := "Right-sizing: Workload is over-provisioned (under 30% utilization)" }
  else
    let hist : Option (List ℚ) :=
      match histOracle pvc.nspace pvc.name with
      | some h => if h ≠ [] then some h else none
      | none => none
    let history := match hist with | some h => h | none => [usageRatio]
    let usageRatio₂ := match hist with | some h => nthD h (h.length - 1) 0 | none => usageRatio
    if usageRatio₂ < 1/20 ∧ anomalyIsZombie history then
      some { rec₀ with
        targetTier := "cold", confidence := 95/100,
        reason := "Optimization: Anomalous Zombie Volume identified (under 5% recurring usage)" }
    else if optimizedClass ≠ pvc.storageClass then
      some { rec₀ with
        targetTier := "warm",
        reason := "Placement: Better performance/cost balance found via RL agent" }
    else none

/-- The observable actions of one reconcile pass: a loudly failed policy
evaluation, a logged intended action, and the outcome of a migration
request. -/
inductive LifecycleEvent where
  | policyEvalError (pvc policyName msg : String)
  | actionRequired (pvc targetClass targetSize reason : String)
  | migrationFailed (pvc err : String)
  | migrationSubmitted (pvc workflow : String)
deriving DecidableEq, Repr

/-- Counting the migration requests among the events of a pass (each
TriggerMigration call produces exactly one failed or submitted event). -/
def countMigrationAttempts (events : List LifecycleEvent) : ℕ :=
  events.countP fun e =>
    match e with
    | .migrationFailed _ _ => true
    | .migrationSubmitted _ _ => true
    | _ => false

/-- executeTransition: logs the intended action and, when a migration
manager is configured, requests the migration once, recording the
returned workflow name or the failure. The manager is the external
migration collaborator, embedded as a function returning the workflow
name or an error. -/
def executeTransition (manager : Option (PVCMetric → String → String → Except String String))
    (pvc : PVCMetric) (rec : OptimizationRecommendation) : List LifecycleEvent :=
  .actionRequired pvc.name rec.targetClass rec.targetSize rec.reason ::
    match manager with
    | none => []
    | some mgr =>
      match mgr pvc rec.targetClass rec.targetSize with
      | .error e => [.migrationFailed pvc.name e]
      | .ok wf => [.migrationSubmitted pvc.name wf]

/-- The body of the reconcile loop for one resource: match a policy (skip
if none), prefer the intelligent recommendation, otherwise fall back to
rule-based tier evaluation; an evaluation error is logged for this
resource only. -/
def processResource (placement : String → List String → String)
    (histOracle : String → String → Option (List ℚ))
    (manager : Option (PVCMetric → String → String → Except String String))
    (policies : List StorageLifecyclePolicy) (now : ℚ) (pvc : PVCMetric) :
    List LifecycleEvent :=
  match matchPolicy policies pvc with
  | none => []
  | some policy =>
    match recommend placement histOracle pvc policy with
    | some rec => executeTransition manager pvc rec
    | none =>
      match evaluate now pvc (some policy) with
      | .error e => [.policyEvalError pvc.name policy.name e]
      | .ok none => []
      | .ok (some targetTier) =>
        executeTransition manager pvc
          { targetClass := targetTier.storageClass,
            targetSize := formatQuantity pvc.sizeBytes,
            targetTier := "warm",
            reason := "Rule-based Tiering: Policy " ++ policy.name ++ " triggered duration threshold",
            confidence := 0 }

/-- The reconcile loop over the metrics snapshot (the Go loop has no
early exit: every resource is visited). -/
def reconcileLoop (placement : String → List String → String)
    (histOracle : String → String → Option (List ℚ))
    (manager : Option (PVCMetric → String → String → Except String String))
    (policies : List StorageLifecyclePolicy) (now : ℚ) :
    List PVCMetric → List LifecycleEvent
  | [] => []
  | pvc :: rest =>
    processResource placement histOracle manager policies now pvc ++
      reconcileLoop placement histOracle manager policies now rest

/-- reconcile: a no-op until a policy set is installed, otherwise the
loop over all resources. -/
def reconcile (placement : String → List String → String)
    (histOracle : String → String → Option (List ℚ))
    (manager : Option (PVCMetric → String → String → Except String String))
    (engine : Option (List StorageLifecyclePolicy)) (now : ℚ)
    (metrics : List PVCMetric) : List LifecycleEvent :=
  match engine with
  | none => []
  | some policies => reconcileLoop placement histOracle manager policies now metrics

/-! Concrete inputs used by the theorems below. -/

/-- A metric with every field zeroed or empty. -/
def emptyMetric : PVCMetric :=
  ⟨"", "", "", "", "", "", 0, 0, 0, 0, 0, 0, 0, 0, 0, [], 0, 0, [], []⟩

/-- One day in nanoseconds, as a rational timestamp unit. -/
def dayNs : ℚ := 24 * 3600 * 1000000000

/-- A 100-GiB resource on the gp3 class, otherwise empty. -/
def gp3Resource100 : PVCMetric :=
  { emptyMetric with sizeBytes := 100 * 1024 * 1024 * 1024, storageClass := "gp3" }

/-- Cost of a metric and both cost fields stamped, as done per element by
the first loop of GenerateSummary. -/
def stampCosts (provider : String) (m : PVCMetric) : PVCMetric :=
  let cost := (calculatePVCCost m provider).1
  { m with monthlyCost := cost, hourlyCost := cost / (24 * 30) }

/-- Monthly cost at a position of a metrics slice. -/
def costAt (l : List PVCMetric) (i : ℕ) : ℚ := (nthD l i default).monthlyCost

/-- An AWS resource eligible for the cross-cloud check: cost 125 exceeds
the 50 floor, savings against GCP pd-standard are 85 and three months of
savings (255) exceed the 90 egress cost. -/
def crossCloudEligible : PVCMetric :=
  { emptyMetric with
    name := "pvc-a", provider := "aws", region := "us-east-1",
    storageClass := "io1", sizeBytes := 1000 * 1024 * 1024 * 1024, monthlyCost := 125 }

/-- A placement oracle answering the first candidate class. -/
def placementFirst : String → List String → String := fun _ cs => nthD cs 0 ""

/-- A flat forecast oracle (predicts no growth). -/
def forecastFlat : ℚ → List ℚ → ℚ := fun c _ => c

/-- The three-tier example of the spec: hot at once, warm after 7 days,
cold after 30 days. -/
def lifecycleTiers : List StorageTier :=
  [⟨"hot", "gp3", "0s"⟩, ⟨"warm", "st1", "7d"⟩, ⟨"cold", "sc1", "30d"⟩]

/-- A wildcard policy carrying the three example tiers. -/
def tierPolicy : StorageLifecyclePolicy := ⟨"tierpol", ⟨⟨[], []⟩, lifecycleTiers, false⟩⟩

/-- A resource on the hot tier class, created at time 0. -/
def hotResource : PVCMetric := { emptyMetric with storageClass := "gp3" }

/-- A resource already on the warm tier class, created at time 0. -/
def warmResource : PVCMetric := { emptyMetric with storageClass := "st1" }

/-- A resource last accessed on day 1, with monthly cost 7. -/
def zombieMetric : PVCMetric :=
  { emptyMetric with name := "z", monthlyCost := 7, lastAccessedAt := dayNs }

/-- A resource with the last-access timestamp unset. -/
def unknownAccessMetric : PVCMetric := { emptyMetric with name := "u", monthlyCost := 7 }

/-- A policy selecting by namespace prod, declared first in the C7
scenario. -/
def nsPolicy : StorageLifecyclePolicy := ⟨"nspol", ⟨⟨[], ["prod"]⟩, lifecycleTiers, false⟩⟩

/-- A policy selecting by the label app=db, declared second. -/
def labelPolicy : StorageLifecyclePolicy :=
  ⟨"labpol", ⟨⟨[("app", "db")], []⟩, lifecycleTiers, false⟩⟩

/-- A resource in namespace dev carrying the label app=db: it satisfies
only the label policy selector. -/
def labelResource : PVCMetric :=
  { emptyMetric with nspace := "dev", labels := [("app", "db")] }

/-- A wildcard policy whose single tier has the malformed duration zz. -/
def badPolicy : StorageLifecyclePolicy :=
  ⟨"badpol", ⟨⟨[], []⟩, [⟨"hot", "gp3", "zz"⟩], false⟩⟩

/-- A resource that matches badPolicy, gets no intelligent
recommendation (half-utilized, placement answers its own class) and so
reaches the failing tier evaluation. -/
def evalErrorResource : PVCMetric :=
  { emptyMetric with
    name := "bad", storageClass := "gp3",
    sizeBytes := 2 * 1024 * 1024 * 1024, usedBytes := 1024 * 1024 * 1024 }

/-- A second such resource, processed after the failing one. -/
def afterErrorResource : PVCMetric :=
  { emptyMetric with
    name := "ok", storageClass := "gp3",
    sizeBytes := 2 * 1024 * 1024 * 1024, usedBytes := 1024 * 1024 * 1024 }

/-- A placement oracle answering gp3 always. -/
def placementSame : String → List String → String := fun _ _ => "gp3"

/-- A history oracle with no data. -/
def histNone : String → String → Option (List ℚ) := fun _ _ => none

/-- A migration manager whose requests always fail. -/
def failingManager : PVCMetric → String → String → Except String String :=
  fun _ _ _ => .error "connection refused"

/-- The error produced by evaluating badPolicy. -/
def badPolicyError : String := "invalid duration zz in policy badpol: time: invalid duration"

/-- The cheap resource of the summary scenario (cost 8). -/
def summaryA : PVCMetric :=
  { emptyMetric with
    name := "a", nspace := "default",
    sizeBytes := 100 * 1024 * 1024 * 1024, storageClass := "gp3" }

/-- The expensive resource of the summary scenario (cost 20). -/
def summaryB : PVCMetric :=
  { emptyMetric with
    name := "b", nspace := "production",
    sizeBytes := 200 * 1024 * 1024 * 1024, storageClass := "gp2" }

/-! Theorems. -/

/-- C1: CalculatePVCCost returns size-in-GB times the per-GB-month price
plus, only when the priced class is provisioned and total IOPS exceed the
3000 baseline, the excess IOPS times the per-IOPS price; the value is
stamped onto the monthly-cost field. A 100-GB gp3 resource (0.08/GB)
with IOPS at or below 3000 costs exactly 8.00, and 1000 IOPS above the
baseline (priced 0.005/IOPS) add exactly 5.00. -/
theorem calculatePVCCost_formula_and_stamp :
    (∀ (m : PVCMetric) (provider : String),
      (calculatePVCCost m provider).1 =
        m.sizeGB * (getPrice provider m.storageClass "us-east-1").perGBMonth +
          (if (getPrice provider m.storageClass "us-east-1").provisioned ∧ m.totalIOPS > 3000
            then (m.totalIOPS - 3000) * (getPrice provider m.storageClass "us-east-1").perIOPS
            else 0) ∧
      (calculatePVCCost m provider).2 =
        { m with monthlyCost := (calculatePVCCost m provider).1 }) ∧
    (calculatePVCCost gp3Resource100 "aws").1 = 8 ∧
    (calculatePVCCost { gp3Resource100 with readIOPS := 3000 } "aws").1 = 8 ∧
    (calculatePVCCost { gp3Resource100 with readIOPS := 4000 } "aws").1 = 8 + 5 :=
  ⟨fun _ _ => ⟨rfl, rfl⟩,
   by simp [calculatePVCCost, getPrice, pricingData, mapLookup, gp3Resource100,
     emptyMetric, PVCMetric.totalIOPS]; norm_num,
   by simp [calculatePVCCost, getPrice, pricingData, mapLookup, gp3Resource100,
     emptyMetric, PVCMetric.totalIOPS]; norm_num,
   by simp [calculatePVCCost, getPrice, pricingData, mapLookup, gp3Resource100,
     emptyMetric, PVCMetric.totalIOPS]; norm_num⟩

/-- C2 counterexample: EstimateSavings does not leave every field of the
original resource unchanged: on a 100-GiB gp3 resource whose
monthly-cost field holds 0, the call overwrites that field with the
computed current cost 8. -/
theorem estimateSavings_overwrites_monthlyCost :
    ((estimateSavings gp3Resource100 "aws" "sc1").2).monthlyCost ≠
      gp3Resource100.monthlyCost := by
  simp [estimateSavings, calculatePVCCost, getPrice, pricingData, mapLookup,
    gp3Resource100, emptyMetric, PVCMetric.totalIOPS]
  norm_num

/-- C2 amended: EstimateSavings applies the target-class substitution to
a copy, so the storage-class field (and every field other than
monthly-cost) of the original is unchanged; the monthly-cost field,
however, is overwritten with the freshly computed current-class cost (the
stamping side effect of the cost calculation), and the returned savings
are the current-class cost minus the target-class cost at the same size
and IOPS. -/
theorem estimateSavings_frame :
    ∀ (m : PVCMetric) (provider newStorageClass : String),
      (estimateSavings m provider newStorageClass).2 =
        { m with monthlyCost := (calculatePVCCost m provider).1 } ∧
      ((estimateSavings m provider newStorageClass).2).storageClass = m.storageClass ∧
      (estimateSavings m provider newStorageClass).1 =
        (calculatePVCCost m provider).1 -
          (calculatePVCCost { m with storageClass := newStorageClass } provider).1 :=
  fun _ _ _ => ⟨rfl, rfl, rfl⟩

/-- C5: with the last-access timestamp unset, IsZombie is false and the
zombie detector abstains; with a known timestamp older than 30 days, the
detector emits a delete-zombie finding whose savings equal the full
current monthly cost, with low impact. -/
theorem zombieDetector_spec :
    ∀ (now : ℚ) (m : PVCMetric),
      (m.lastAccessedAt = 0 →
        m.isZombie now = false ∧ checkZombieVolume now m = none) ∧
      (m.lastAccessedAt ≠ 0 →
        ((now - m.lastAccessedAt) / (3600 * 1000000000)) / 24 > 30 →
        ∃ r, checkZombieVolume now m = some r ∧ r.type = "delete_zombie" ∧
          r.monthlySavings = m.monthlyCost ∧ r.impact = "low") := by
  intro now m
  constructor
  · intro h
    constructor
    · simp [PVCMetric.isZombie, h]
    · simp [checkZombieVolume, h]
  · intro h hage
    rw [checkZombieVolume, if_neg h, if_pos hage]
    exact ⟨_, rfl, rfl, rfl, rfl⟩

/-- Witness for C5 at concrete inputs: a resource with the timestamp
unset is never flagged, and a resource 39 days stale yields the
delete-zombie finding with its full cost as savings. -/
theorem zombieDetector_spec_witness :
    (unknownAccessMetric.isZombie (40 * dayNs) = false ∧
      checkZombieVolume (40 * dayNs) unknownAccessMetric = none) ∧
    (∃ r, checkZombieVolume (40 * dayNs) zombieMetric = some r ∧
      r.type = "delete_zombie" ∧ r.monthlySavings = zombieMetric.monthlyCost ∧
      r.impact = "low") :=
  ⟨(zombieDetector_spec (40 * dayNs) unknownAccessMetric).1 rfl,
   (zombieDetector_spec (40 * dayNs) zombieMetric).2
     (by simp [zombieMetric, emptyMetric, dayNs])
     (by simp [zombieMetric, emptyMetric, dayNs]; norm_num)⟩

/-- C6: GetPrice resolves the exact provider+class key first, falls back
to the provider-level default key, then to the single global default
(which is present in the pricing table), so the three-level chain always
produces a price. -/
theorem getPrice_threeLevelFallback :
    ∀ (provider storageClass region : String),
      (getPriceOpt provider storageClass region).isSome = true ∧
      getPrice provider storageClass region =
        (getPriceOpt provider storageClass region).getD zeroPricing ∧
      (∀ p, mapLookup pricingData (provider ++ "-" ++ storageClass) = some p →
        getPrice provider storageClass region = p) ∧
      (mapLookup pricingData (provider ++ "-" ++ storageClass) = none →
        ∀ p, mapLookup pricingData (provider ++ "-default") = some p →
          getPrice provider storageClass region = p) ∧
      (mapLookup pricingData (provider ++ "-" ++ storageClass) = none →
        mapLookup pricingData (provider ++ "-default") = none →
        getPrice provider storageClass region = ⟨10/100, 0, false⟩) := by
  intro prov sc r
  have hu : mapLookup pricingData "unknown-default" = some ⟨10/100, 0, false⟩ := rfl
  cases h₁ : mapLookup pricingData (prov ++ "-" ++ sc) with
  | some p =>
    refine ⟨?_, ?_, ?_, ?_, ?_⟩ <;>
      simp [getPrice, getPriceOpt, h₁, Option.orElse]
  | none =>
    cases h₂ : mapLookup pricingData (prov ++ "-default") with
    | some p =>
      refine ⟨?_, ?_, ?_, ?_, ?_⟩ <;>
        simp [getPrice, getPriceOpt, h₁, h₂, Option.orElse]
    | none =>
      refine ⟨?_, ?_, ?_, ?_, ?_⟩ <;>
        simp [getPrice, getPriceOpt, h₁, h₂, hu, Option.orElse]

/-- Witness for C6 at concrete inputs: an unknown class on a known
provider and a fully unknown provider both resolve to the global default
price 0.10/GB. -/
theorem getPrice_threeLevelFallback_witness :
    getPrice "aws" "mystery-class" "us-east-1" = ⟨10/100, 0, false⟩ ∧
    getPrice "alibaba" "standard" "us-east-1" = ⟨10/100, 0, false⟩ :=
  ⟨(getPrice_threeLevelFallback "aws" "mystery-class" "us-east-1").2.2.2.2 rfl rfl,
   (getPrice_threeLevelFallback "alibaba" "standard" "us-east-1").2.2.2.2 rfl rfl⟩

/-- C8 counterexample: the string 3dd is malformed (it is neither an
integer followed by the day unit nor standard duration syntax), yet
ParseDuration accepts it as 3 days (259200000000000 ns = 72h): the
day-count scan reads the integer and the first d and ignores the
remaining input, as fmt.Sscanf does. -/
theorem parseDuration_accepts_3dd :
    parseDuration "3dd" = Except.ok 259200000000000 := rfl

/-- C8 amended: ParseDuration maps 30d to exactly 30 x 24 hours, accepts
standard duration syntax (1h is one hour), and returns an error for the
empty string and for malformed strings - except that a string ending in
d whose leading portion (after optional spaces and sign) is an integer
immediately followed by d is accepted as that many days, any remaining
characters being ignored (3dd parses as 3 days). -/
theorem parseDuration_spec :
    parseDuration "30d" = Except.ok (30 * 24 * 3600 * 1000000000) ∧
    parseDuration "1h" = Except.ok 3600000000000 ∧
    parseDuration "" = Except.error "empty duration" ∧
    parseDuration "abc" = Except.error "time: invalid duration" ∧
    parseDuration "12" = Except.error "time: missing unit in duration" ∧
    parseDuration "5x" = Except.error "time: unknown unit in duration" ∧
    parseDuration "xd" = Except.error "invalid days format: xd" ∧
    parseDuration "3dd" = Except.ok 259200000000000 :=
  ⟨rfl, rfl, rfl, rfl, rfl, rfl, rfl, rfl⟩

/-- C7: Match returns the first policy in stored order whose selector
matches the resource; a selector matches iff its namespace list is empty
or contains the resource namespace, and every label-equality constraint
is satisfied by the resource labels (none means trivially satisfied).
In the concrete scenario, a resource satisfying only the label-based
selector resolves to the label policy even though it is declared second,
the namespace-based policy not matching it. -/
theorem matchPolicy_first_match :
    (∀ (policies : List StorageLifecyclePolicy) (pvc : PVCMetric),
      matchPolicy policies pvc =
        policies.find? fun p => nsMatches p pvc && labelsMatch p pvc) ∧
    (∀ (p : StorageLifecyclePolicy) (pvc : PVCMetric),
      (nsMatches p pvc && labelsMatch p pvc) = true ↔
        ((p.spec.selector.matchNamespaces = [] ∨
            pvc.nspace ∈ p.spec.selector.matchNamespaces) ∧
          ∀ kv ∈ p.spec.selector.matchLabels, mapLookup pvc.labels kv.1 = some kv.2)) ∧
    matchPolicy [nsPolicy, labelPolicy] labelResource = some labelPolicy ∧
    nsMatches nsPolicy labelResource = false := by
  refine ⟨?_, ?_, rfl, rfl⟩
  · intro policies pvc
    induction policies with
    | nil => rfl
    | cons p rest ih =>
      cases hns : nsMatches p pvc with
      | false => simp [matchPolicy, List.find?, hns, ih]
      | true =>
        cases hlm : labelsMatch p pvc with
        | false => simp [matchPolicy, List.find?, hns, hlm, ih]
        | true => simp [matchPolicy, List.find?, hns, hlm]
  · intro p pvc
    simp only [Bool.and_eq_true]
    constructor
    · rintro ⟨h₁, h₂⟩
      constructor
      · unfold nsMatches at h₁
        split at h₁
        · exact Or.inl (by assumption)
        · exact Or.inr (by simpa using h₁)
      · intro kv hkv
        unfold labelsMatch at h₂
        rw [List.all_eq_true] at h₂
        have hv := h₂ kv hkv
        cases hl : mapLookup pvc.labels kv.1 with
        | none => rw [hl] at hv; simp at hv
        | some v =>
          rw [hl] at hv
          simp only [decide_eq_true_eq] at hv
          rw [hv]
    · rintro ⟨h₁, h₂⟩
      refine ⟨?_, ?_⟩
      · unfold nsMatches
        split
        · rfl
        · rcases h₁ with h | h
          · exact absurd h (by assumption)
          · simpa using h
      · unfold labelsMatch
        rw [List.all_eq_true]
        intro kv hkv
        rw [h₂ kv hkv]
        simp

/-- The current-tier scan never returns less than -1. -/
theorem findCurrentTierIdx_ge_neg_one (tiers : List StorageTier) (sc : String) :
    ∀ i : ℕ, -1 ≤ findCurrentTierIdx tiers sc i := by
  induction tiers with
  | nil => intro i; simp [findCurrentTierIdx]
  | cons t rest ih =>
    intro i
    rw [findCurrentTierIdx]
    split
    · omega
    · exact ih (i + 1)

/-- Characterization of the downward target-tier scan: a returned index
is below the scan start, its tier duration parses and has elapsed, and
every index above it (within the scan) parses to a duration that has not
elapsed. -/
theorem findTargetTier_spec (tiers : List StorageTier) (policyName : String) (age : ℚ) :
    ∀ (n i : ℕ), findTargetTier tiers policyName age n = .ok (some i) →
      i < n ∧
      (∃ dur : ℤ, parseDuration (nthD tiers i default).duration = .ok dur ∧
        age > (dur : ℚ)) ∧
      (∀ k, i < k → k < n →
        ∃ dur : ℤ, parseDuration (nthD tiers k default).duration = .ok dur ∧
          ¬ age > (dur : ℚ)) := by
  intro n
  induction n with
  | zero => intro i h; exact absurd h (by simp [findTargetTier])
  | succ n ih =>
    intro i h
    rw [findTargetTier] at h
    cases hp : parseDuration (nthD tiers n default).duration with
    | error e => rw [hp] at h; exact absurd h (by simp)
    | ok dur =>
      rw [hp] at h
      dsimp only at h
      by_cases hage : age > (dur : ℚ)
      · rw [if_pos hage] at h
        have hin : i = n := by
          have := h
          simp at this
          omega
        subst hin
        refine ⟨Nat.lt_succ_self i, ⟨dur, hp, hage⟩, ?_⟩
        intro k hk₁ hk₂
        omega
      · rw [if_neg hage] at h
        obtain ⟨h₁, h₂, h₃⟩ := ih i h
        refine ⟨Nat.lt_succ_of_lt h₁, h₂, ?_⟩
        intro k hk₁ hk₂
        rcases Nat.lt_succ_iff_lt_or_eq.mp hk₂ with hk | hk
        · exact h₃ k hk₁ hk
        · subst hk; exact ⟨dur, hp, hage⟩

/-- C4: whenever Evaluate returns a tier, that tier sits at the most
advanced index whose parsed duration has elapsed since creation (every
more advanced tier has an unelapsed, parseable duration), and that index
strictly exceeds the index of the tier whose class the resource is on
(-1 when none matches) - the engine never proposes an earlier tier. -/
theorem evaluate_most_advanced_forward :
    ∀ (now : ℚ) (pvc : PVCMetric) (policy : StorageLifecyclePolicy) (t : StorageTier),
      evaluate now pvc (some policy) = .ok (some t) →
      ∃ i : ℕ, i < policy.spec.tiers.length ∧
        t = nthD policy.spec.tiers i default ∧
        (∃ dur : ℤ, parseDuration (nthD policy.spec.tiers i default).duration = .ok dur ∧
          now - pvc.createdAt > (dur : ℚ)) ∧
        (∀ k, i < k → k < policy.spec.tiers.length →
          ∃ dur : ℤ, parseDuration (nthD policy.spec.tiers k default).duration = .ok dur ∧
            ¬ now - pvc.createdAt > (dur : ℚ)) ∧
        (i : ℤ) > findCurrentTierIdx policy.spec.tiers pvc.storageClass 0 := by
  intro now pvc policy t h
  rw [evaluate] at h
  cases hft : findTargetTier policy.spec.tiers policy.name (now - pvc.createdAt)
      policy.spec.tiers.length with
  | error e => rw [hft] at h; exact absurd h (by simp)
  | ok targetOpt =>
    rw [hft] at h
    dsimp only at h
    cases targetOpt with
    | none =>
      have hge := findCurrentTierIdx_ge_neg_one policy.spec.tiers pvc.storageClass 0
      rw [Option.elim] at h
      rw [if_neg (by omega)] at h
      exact absurd h (by simp)
    | some i =>
      rw [Option.elim] at h
      obtain ⟨h₁, h₂, h₃⟩ := findTargetTier_spec policy.spec.tiers policy.name
        (now - pvc.createdAt) policy.spec.tiers.length i hft
      by_cases hgt : ((i : ℕ) : ℤ) > findCurrentTierIdx policy.spec.tiers pvc.storageClass 0
      · rw [if_pos hgt] at h
        have ht : t = nthD policy.spec.tiers ((i : ℤ)).toNat default := by
          simpa using h.symm
        refine ⟨i, h₁, ?_, h₂, h₃, hgt⟩
        simpa using ht
      · rw [if_neg hgt] at h
        exact absurd h (by simp)

/-- The tier durations of the concrete three-tier policy. -/
theorem parse_0s : parseDuration "0s" = Except.ok 0 := rfl

/-- 7d parses to seven 24-hour days in nanoseconds. -/
theorem parse_7d : parseDuration "7d" = Except.ok 604800000000000 := rfl

/-- 30d parses to thirty 24-hour days in nanoseconds. -/
theorem parse_30d : parseDuration "30d" = Except.ok 2592000000000000 := rfl

/-- Witness for C4 on the spec tiers [hot at 0s, warm at 7d, cold at
30d]: an 8-day-old resource on the hot class evaluates to warm, a
40-day-old one to cold (skipping warm), an 8-day-old resource already on
warm to none; the characterization theorem applies to the first case. -/
theorem evaluate_most_advanced_forward_witness :
    evaluate (8 * dayNs) hotResource (some tierPolicy) =
      .ok (some ⟨"warm", "st1", "7d"⟩) ∧
    evaluate (40 * dayNs) hotResource (some tierPolicy) =
      .ok (some ⟨"cold", "sc1", "30d"⟩) ∧
    evaluate (8 * dayNs) warmResource (some tierPolicy) = .ok none ∧
    (∃ i : ℕ, i < tierPolicy.spec.tiers.length ∧
      (⟨"warm", "st1", "7d"⟩ : StorageTier) = nthD tierPolicy.spec.tiers i default ∧
      (∃ dur : ℤ, parseDuration (nthD tierPolicy.spec.tiers i default).duration = .ok dur ∧
        8 * dayNs - hotResource.createdAt > (dur : ℚ)) ∧
      (∀ k, i < k → k < tierPolicy.spec.tiers.length →
        ∃ dur : ℤ, parseDuration (nthD tierPolicy.spec.tiers k default).duration = .ok dur ∧
          ¬ 8 * dayNs - hotResource.createdAt > (dur : ℚ)) ∧
      (i : ℤ) > findCurrentTierIdx tierPolicy.spec.tiers hotResource.storageClass 0) := by
  have h1 : evaluate (8 * dayNs) hotResource (some tierPolicy) =
      .ok (some ⟨"warm", "st1", "7d"⟩) := by
    simp [evaluate, findTargetTier, findCurrentTierIdx, nthD, tierPolicy, lifecycleTiers,
      hotResource, emptyMetric, parse_0s, parse_7d, parse_30d, dayNs]
    norm_num
    rfl
  have h2 : evaluate (40 * dayNs) hotResource (some tierPolicy) =
      .ok (some ⟨"cold", "sc1", "30d"⟩) := by
    simp [evaluate, findTargetTier, findCurrentTierIdx, nthD, tierPolicy, lifecycleTiers,
      hotResource, emptyMetric, parse_0s, parse_7d, parse_30d, dayNs]
    norm_num
    rfl
  have h3 : evaluate (8 * dayNs) warmResource (some tierPolicy) = .ok none := by
    simp [evaluate, findTargetTier, findCurrentTierIdx, nthD, tierPolicy, lifecycleTiers,
      warmResource, emptyMetric, parse_0s, parse_7d, parse_30d, dayNs]
    norm_num
  exact ⟨h1, h2, h3, evaluate_most_advanced_forward (8 * dayNs) hotResource tierPolicy _ h1⟩

/-- Insertion into the savings-sorted list adds no new elements. -/
theorem insertBySavings_mem {r a : Recommendation} :
    ∀ {l : List Recommendation}, a ∈ insertBySavings r l → a = r ∨ a ∈ l := by
  intro l
  induction l with
  | nil => intro h; rw [insertBySavings] at h; simpa using h
  | cons s rest ih =>
    intro h
    rw [insertBySavings] at h
    split at h
    · rcases List.mem_cons.mp h with h | h
      · exact Or.inl h
      · exact Or.inr h
    · rcases List.mem_cons.mp h with h | h
      · exact Or.inr (List.mem_cons.mpr (Or.inl h))
      · rcases ih h with h | h
        · exact Or.inl h
        · exact Or.inr (List.mem_cons.mpr (Or.inr h))

/-- The savings sort of the optimizer adds no new elements. -/
theorem sortBySavings_mem {a : Recommendation} :
    ∀ {l : List Recommendation}, a ∈ sortBySavings l → a ∈ l := by
  intro l
  induction l with
  | nil => intro h; simpa [sortBySavings] using h
  | cons s rest ih =>
    intro h
    have hc : sortBySavings (s :: rest) = insertBySavings s (sortBySavings rest) := rfl
    rw [hc] at h
    rcases insertBySavings_mem h with h | h
    · exact List.mem_cons.mpr (Or.inl h)
    · exact List.mem_cons.mpr (Or.inr (ih h))

/-- Every finding of the zombie detector is a delete-zombie finding. -/
theorem checkZombieVolume_type {now : ℚ} {m : PVCMetric} {r : Recommendation} :
    checkZombieVolume now m = some r → r.type = "delete_zombie" := by
  intro h
  rw [checkZombieVolume] at h
  split at h
  · exact absurd h (by simp)
  · lift_lets at h
    extract_lets at h
    split at h
    · have h₂ := Option.some.inj h
      rw [← h₂]
    · exact absurd h (by simp)

/-- Every finding of the storage-class detector is a storage-class
finding. -/
theorem checkStorageClassOptimization_type {m : PVCMetric} {p : String} {r : Recommendation} :
    (checkStorageClassOptimization m p).1 = some r → r.type = "storage_class" := by
  intro h
  unfold checkStorageClassOptimization at h
  lift_lets at h
  extract_lets at h
  split at h
  · lift_lets at h
    extract_lets at h
    split at h
    · have h₂ := Option.some.inj h
      rw [← h₂]
    · exact absurd h (by simp)
  · exact absurd h (by simp)

/-- Every finding of the oversize detector is a resize finding. -/
theorem checkOversizedVolume_type {m : PVCMetric} {r : Recommendation} :
    checkOversizedVolume m = some r → r.type = "resize" := by
  intro h
  rw [checkOversizedVolume] at h
  split at h
  · exact absurd h (by simp)
  · lift_lets at h
    extract_lets at h
    split at h
    · lift_lets at h
      extract_lets at h
      have h₂ := Option.some.inj h
      rw [← h₂]
    · exact absurd h (by simp)

/-- No finding of the per-resource battery is a cross-cloud move. -/
theorem processMetricRecs_no_moveCloud {pl : String → List String → String}
    {fc : ℚ → List ℚ → ℚ} {now : ℚ} {prov : String} {m : PVCMetric} {r : Recommendation} :
    r ∈ processMetricRecs pl fc now prov m → r.type ≠ "move_cloud" := by
  intro h
  simp only [processMetricRecs, List.mem_append] at h
  rcases h with ((hz | hsc) | hov) | hrl
  · rw [Option.mem_toList] at hz
    rw [checkZombieVolume_type hz]
    decide
  · rw [Option.mem_toList] at hsc
    rw [checkStorageClassOptimization_type hsc]
    decide
  · split at hov
    · split at hov
      · rcases List.mem_singleton.mp hov with h₂
        subst h₂
        rename_i r₂ hr₂
        show r₂.type ≠ "move_cloud"
        rw [checkOversizedVolume_type hr₂]
        decide
      · exact absurd hov (by simp)
    · rw [Option.mem_toList] at hov
      rw [checkOversizedVolume_type hov]
      decide
  · split at hrl
    · rcases List.mem_singleton.mp hrl with h₂
      subst h₂
      simp
    · exact absurd hrl (by simp)

/-- The merged, sorted recommendation list of GenerateRecommendations
never contains a cross-cloud move finding: the cross-cloud detector is
not part of the battery. -/
theorem generateRecommendations_no_moveCloud (pl : String → List String → String)
    (fc : ℚ → List ℚ → ℚ) (now : ℚ) (metrics : List PVCMetric) (prov : String) :
    (generateRecommendations pl fc now metrics prov).all
      (fun r => r.type ≠ "move_cloud") = true := by
  rw [List.all_eq_true]
  intro r hr
  have h₁ := sortBySavings_mem hr
  rw [List.mem_flatten] at h₁
  obtain ⟨l, hl, hrl⟩ := h₁
  rw [List.mem_map] at hl
  obtain ⟨m, _, hm⟩ := hl
  subst hm
  simpa using processMetricRecs_no_moveCloud hrl

/-- C3 counterexample: a resource whose monthly cost (125) exceeds the
50 floor and for which three months of savings against GCP exceed the
one-time egress cost - so the cross-cloud detector, called directly,
produces a move_cloud finding with impact high - yet the merged list of
GenerateRecommendations contains no move_cloud finding at all: the
detector is never invoked by GenerateRecommendations. -/
theorem generateRecommendations_misses_crossCloud :
    crossCloudEligible.monthlyCost > 50 ∧
    (∃ r, checkCrossCloudMigration crossCloudEligible = some r ∧
      r.type = "move_cloud" ∧ r.impact = "high" ∧ r.monthlySavings > 10 ∧
      r.monthlySavings * 3 >
        calculateEgressCost crossCloudEligible.sizeBytes crossCloudEligible.provider
          crossCloudEligible.region "gcp" "us-central1") ∧
    (generateRecommendations placementFirst forecastFlat 0 [crossCloudEligible] "aws").all
      (fun r => r.type ≠ "move_cloud") = true := by
  refine ⟨by norm_num [crossCloudEligible, emptyMetric], ?_,
    generateRecommendations_no_moveCloud placementFirst forecastFlat 0
      [crossCloudEligible] "aws"⟩
  simp [checkCrossCloudMigration, crossCloudEligible, emptyMetric, getPrice,
    pricingData, mapLookup, PVCMetric.sizeGB, PVCMetric.totalIOPS, calculateEgressCost]
  norm_num

/-- C3 amended: GenerateRecommendations does not run the cross-provider
detector; its merged list never contains a move_cloud finding, for any
resources, provider, and placement/forecast oracles. The detector exists
and, invoked directly on a resource above the cost floor whose
three-month savings exceed the egress cost, returns a move_cloud finding
with impact high. -/
theorem generateRecommendations_battery_no_crossCloud :
    (∀ (pl : String → List String → String) (fc : ℚ → List ℚ → ℚ) (now : ℚ)
      (metrics : List PVCMetric) (prov : String),
      (generateRecommendations pl fc now metrics prov).all
        (fun r => r.type ≠ "move_cloud") = true) ∧
    (∃ r, checkCrossCloudMigration crossCloudEligible = some r ∧
      r.type = "move_cloud" ∧ r.impact = "high") := by
  refine ⟨generateRecommendations_no_moveCloud, ?_⟩
  simp [checkCrossCloudMigration, crossCloudEligible, emptyMetric, getPrice,
    pricingData, mapLookup, PVCMetric.sizeGB, PVCMetric.totalIOPS, calculateEgressCost]
  norm_num

/-- The reconcile loop distributes over list append: the events of one
pass are the concatenation of the per-resource events, so no resource
outcome suppresses the processing of later resources. -/
theorem reconcileLoop_append (pl : String → List String → String)
    (hist : String → String → Option (List ℚ))
    (mgr : Option (PVCMetric → String → String → Except String String))
    (pols : List StorageLifecyclePolicy) (now : ℚ) :
    ∀ (l₁ l₂ : List PVCMetric),
      reconcileLoop pl hist mgr pols now (l₁ ++ l₂) =
        reconcileLoop pl hist mgr pols now l₁ ++ reconcileLoop pl hist mgr pols now l₂ := by
  intro l₁ l₂
  induction l₁ with
  | nil => rfl
  | cons x rest ih => simp [reconcileLoop, ih]

/-- C9: per-resource failures are isolated in a reconcile pass. When
tier evaluation fails for a resource (and the intelligent recommender
abstains), that resource contributes exactly its logged evaluation error
- no migration attempt - and the pass still processes every resource
before and after it (the pass distributes over the list); a configured
manager is asked exactly once per executed transition, also when the
request fails, so a failed request is not retried within the pass. -/
theorem reconcile_isolates_failures :
    ∀ (pl : String → List String → String) (hist : String → String → Option (List ℚ))
      (mgr : Option (PVCMetric → String → String → Except String String))
      (pols : List StorageLifecyclePolicy) (now : ℚ)
      (pre post : List PVCMetric) (x : PVCMetric)
      (pol : StorageLifecyclePolicy) (e : String),
      matchPolicy pols x = some pol →
      recommend pl hist x pol = none →
      evaluate now x (some pol) = .error e →
      processResource pl hist mgr pols now x =
        [.policyEvalError x.name pol.name e] ∧
      reconcile pl hist mgr (some pols) now (pre ++ x :: post) =
        reconcile pl hist mgr (some pols) now pre ++
          [.policyEvalError x.name pol.name e] ++
          reconcile pl hist mgr (some pols) now post ∧
      countMigrationAttempts [LifecycleEvent.policyEvalError x.name pol.name e] = 0 ∧
      (∀ mgr₂ pvc rec, countMigrationAttempts (executeTransition (some mgr₂) pvc rec) = 1) := by
  intro pl hist mgr pols now pre post x pol e hm hr he
  have hp : processResource pl hist mgr pols now x =
      [.policyEvalError x.name pol.name e] := by
    rw [processResource, hm]
    dsimp only
    rw [hr]
    dsimp only
    rw [he]
  refine ⟨hp, ?_, by simp [countMigrationAttempts], ?_⟩
  · show reconcileLoop pl hist mgr pols now (pre ++ x :: post) = _
    rw [reconcileLoop_append]
    have hx : reconcileLoop pl hist mgr pols now (x :: post) =
        processResource pl hist mgr pols now x ++ reconcileLoop pl hist mgr pols now post :=
      rfl
    rw [hx, hp]
    simp [reconcile]
  · intro mgr₂ pvc rec
    rw [executeTransition]
    cases h : mgr₂ pvc rec.targetClass rec.targetSize <;>
      simp [countMigrationAttempts]

/-- Witness for C9: with the malformed-duration policy, a failing
migration manager and two resources, the failing resource logs exactly
its evaluation error, the second resource is still processed, and a
transition asks the manager exactly once. -/
theorem reconcile_isolates_failures_witness :
    processResource placementSame histNone (some failingManager) [badPolicy] 0
        evalErrorResource =
      [.policyEvalError evalErrorResource.name badPolicy.name badPolicyError] ∧
    reconcile placementSame histNone (some failingManager) (some [badPolicy]) 0
        ([] ++ evalErrorResource :: [afterErrorResource]) =
      reconcile placementSame histNone (some failingManager) (some [badPolicy]) 0 [] ++
        [.policyEvalError evalErrorResource.name badPolicy.name badPolicyError] ++
        reconcile placementSame histNone (some failingManager) (some [badPolicy]) 0
          [afterErrorResource] ∧
    countMigrationAttempts
      [LifecycleEvent.policyEvalError evalErrorResource.name badPolicy.name
        badPolicyError] = 0 ∧
    (∀ mgr₂ pvc rec, countMigrationAttempts (executeTransition (some mgr₂) pvc rec) = 1) := by
  have h₂ : recommend placementSame histNone evalErrorResource badPolicy = none := by
    simp [recommend, evalErrorResource, emptyMetric, histNone, placementSame,
      anomalyIsZombie, nthD]
    norm_num
  exact reconcile_isolates_failures placementSame histNone (some failingManager)
    [badPolicy] 0 [] [afterErrorResource] evalErrorResource badPolicy badPolicyError
    rfl h₂ rfl

/-- setN preserves length. -/
theorem length_setN {α : Type} : ∀ (l : List α) (i : ℕ) (x : α),
    (setN l i x).length = l.length := by
  intro l
  induction l with
  | nil => intro i x; rfl
  | cons a t ih =>
    intro i x
    cases i with
    | zero => rfl
    | succ n => simp [setN, ih]

/-- Reading the written position. -/
theorem nthD_setN_self {α : Type} : ∀ (l : List α) (i : ℕ) (x d : α),
    i < l.length → nthD (setN l i x) i d = x := by
  intro l
  induction l with
  | nil => intro i x d h; simp at h
  | cons a t ih =>
    intro i x d h
    cases i with
    | zero => rfl
    | succ n => exact ih n x d (by simpa using h)

/-- Reading another position. -/
theorem nthD_setN_other {α : Type} : ∀ (l : List α) (i j : ℕ) (x d : α),
    i ≠ j → nthD (setN l i x) j d = nthD l j d := by
  intro l
  induction l with
  | nil => intro i j x d h; rfl
  | cons a t ih =>
    intro i j x d h
    cases i with
    | zero =>
      cases j with
      | zero => exact absurd rfl h
      | succ m => rfl
    | succ n =>
      cases j with
      | zero => rfl
      | succ m => exact ih n m x d (by omega)

/-- Writing back the read value is the identity. -/
theorem setN_nthD_self {α : Type} : ∀ (l : List α) (i : ℕ) (d : α),
    setN l i (nthD l i d) = l := by
  intro l
  induction l with
  | nil => intro i d; rfl
  | cons a t ih =>
    intro i d
    cases i with
    | zero => rfl
    | succ n => simp [setN, nthD, ih]

/-- swapN preserves length. -/
theorem length_swapN {α : Type} [Inhabited α] (l : List α) (i j : ℕ) :
    (swapN l i j).length = l.length := by
  simp [swapN, length_setN]

/-- The first swapped position holds the other element. -/
theorem nthD_swapN_fst {α : Type} [Inhabited α] (l : List α) (i j : ℕ)
    (hi : i < l.length) (hj : j < l.length) :
    nthD (swapN l i j) i default = nthD l j default := by
  by_cases h : i = j
  · subst h
    rw [swapN, setN_nthD_self, nthD_setN_self _ _ _ _ hi]
  · rw [swapN, nthD_setN_other _ _ _ _ _ (fun hh => h hh.symm),
      nthD_setN_self _ _ _ _ hi]

/-- The second swapped position holds the first element. -/
theorem nthD_swapN_snd {α : Type} [Inhabited α] (l : List α) (i j : ℕ)
    (hi : i < l.length) (hj : j < l.length) :
    nthD (swapN l i j) j default = nthD l i default := by
  rw [swapN, nthD_setN_self]
  rw [length_setN]
  exact hj

/-- Positions away from the swap are untouched. -/
theorem nthD_swapN_other {α : Type} [Inhabited α] (l : List α) (i j a : ℕ)
    (ha₁ : a ≠ i) (ha₂ : a ≠ j) :
    nthD (swapN l i j) a default = nthD l a default := by
  rw [swapN, nthD_setN_other _ _ _ _ _ (fun hh => ha₂ hh.symm),
    nthD_setN_other _ _ _ _ _ (fun hh => ha₁ hh.symm)]

/-- Extracting the element at a position to the front, writing x there,
is a permutation of putting x in front. -/
theorem extract_setN_perm {α : Type} : ∀ (t : List α) (j : ℕ) (x d : α),
    j < t.length → (nthD t j d :: setN t j x).Perm (x :: t) := by
  intro t
  induction t with
  | nil => intro j x d h; simp at h
  | cons a r ih =>
    intro j x d h
    cases j with
    | zero =>
      show (a :: x :: r).Perm (x :: a :: r)
      exact List.Perm.swap x a r
    | succ m =>
      have hm : m < r.length := by simpa using h
      show (nthD r m d :: a :: setN r m x).Perm (x :: a :: r)
      have h₁ : (nthD r m d :: a :: setN r m x).Perm (a :: nthD r m d :: setN r m x) :=
        List.Perm.swap a (nthD r m d) (setN r m x)
      have h₂ : (a :: nthD r m d :: setN r m x).Perm (a :: x :: r) :=
        (ih m x d hm).cons a
      have h₃ : (a :: x :: r).Perm (x :: a :: r) := List.Perm.swap x a r
      exact (h₁.trans h₂).trans h₃

/-- The Go parallel-assignment swap is a permutation. -/
theorem swapN_perm {α : Type} [Inhabited α] : ∀ (l : List α) (i j : ℕ),
    i < l.length → j < l.length → (swapN l i j).Perm l := by
  intro l
  induction l with
  | nil => intro i j hi hj; simp at hi
  | cons a t ih =>
    intro i j hi hj
    cases i with
    | zero =>
      cases j with
      | zero =>
        rw [swapN, setN_nthD_self, setN_nthD_self]
      | succ m =>
        have hm : m < t.length := by simpa using hj
        show (nthD t m default :: setN t m a).Perm (a :: t)
        exact extract_setN_perm t m a default hm
    | succ n =>
      cases j with
      | zero =>
        have hn : n < t.length := by simpa using hi
        show (nthD t n default :: setN t n a).Perm (a :: t)
        exact extract_setN_perm t n a default hn
      | succ m =>
        have hn : n < t.length := by simpa using hi
        have hm : m < t.length := by simpa using hj
        show (a :: swapN t n m).Perm (a :: t)
        exact (ih n m hn hm).cons a

/-- The inner scan of the top-N selection returns an in-range index (the
start index, or one at or beyond the scan position) holding a maximal
monthly cost over the start index and the scanned range. -/
theorem maxIdxFrom_spec (l : List PVCMetric) :
    ∀ (fuel j mi : ℕ), l.length ≤ j + fuel → mi < l.length →
      ((maxIdxFrom l j mi = mi ∨ j ≤ maxIdxFrom l j mi) ∧ maxIdxFrom l j mi < l.length) ∧
      costAt l (maxIdxFrom l j mi) ≥ costAt l mi ∧
      (∀ k, j ≤ k → k < l.length → costAt l (maxIdxFrom l j mi) ≥ costAt l k) := by
  intro fuel
  induction fuel with
  | zero =>
    intro j mi hf hmi
    rw [maxIdxFrom, dif_neg (by omega)]
    exact ⟨⟨Or.inl rfl, hmi⟩, le_refl _, fun k hk₁ hk₂ => absurd hk₂ (by omega)⟩
  | succ n ih =>
    intro j mi hf hmi
    by_cases hj : j < l.length
    · rw [maxIdxFrom, dif_pos hj]
      by_cases hcmp : (nthD l j default).monthlyCost > (nthD l mi default).monthlyCost
      · rw [if_pos hcmp]
        obtain ⟨⟨hb₁, hb₂⟩, hge, hall⟩ := ih (j + 1) j (by omega) hj
        refine ⟨⟨Or.inr (by omega), hb₂⟩, ?_, ?_⟩
        · exact le_trans (le_of_lt hcmp) hge
        · intro k hk₁ hk₂
          rcases Nat.eq_or_lt_of_le hk₁ with hk | hk
          · rw [← hk]; exact hge
          · exact hall k (by omega) hk₂
      · rw [if_neg hcmp]
        obtain ⟨⟨hb₁, hb₂⟩, hge, hall⟩ := ih (j + 1) mi (by omega) hmi
        refine ⟨⟨by omega, hb₂⟩, hge, ?_⟩
        intro k hk₁ hk₂
        rcases Nat.eq_or_lt_of_le hk₁ with hk | hk
        · rw [← hk]
          exact le_trans (le_of_not_lt hcmp) hge
        · exact hall k (by omega) hk₂
    · rw [maxIdxFrom, dif_neg hj]
      exact ⟨⟨Or.inl rfl, hmi⟩, le_refl _, fun k hk₁ hk₂ => absurd hk₂ (by omega)⟩

/-- The monthly cost at a position of a swapped slice, routed through the
swap. -/
theorem costAt_swapN (l : List PVCMetric) (i m : ℕ) (hi : i < l.length)
    (hm : m < l.length) (x : ℕ) :
    costAt (swapN l i m) x =
      costAt l (if x = i then m else if x = m then i else x) := by
  by_cases h₁ : x = i
  · subst h₁
    rw [if_pos rfl, costAt, costAt, nthD_swapN_fst l x m hi hm]
  · by_cases h₂ : x = m
    · subst h₂
      rw [if_neg h₁, if_pos rfl, costAt, costAt, nthD_swapN_snd l i x hi hm]
    · rw [if_neg h₁, if_neg h₂, costAt, costAt, nthD_swapN_other l i m x h₁ h₂]

/-- The final slice of the selection loop is a permutation of its input
slice. -/
theorem selectLoop_fst_perm (tc : ℕ) :
    ∀ (fuel : ℕ) (l top : List PVCMetric) (i : ℕ), tc ≤ i + fuel →
      ((selectLoop tc l top i).1).Perm l := by
  intro fuel
  induction fuel with
  | zero =>
    intro l top i hf
    rw [selectLoop, dif_neg (by omega)]
  | succ n ih =>
    intro l top i hf
    by_cases hc : i < tc ∧ i < l.length
    · rw [selectLoop, dif_pos hc]
      obtain ⟨⟨hb₁, hb₂⟩, -, -⟩ :=
        maxIdxFrom_spec l l.length (i + 1) i (by omega) hc.2
      exact (ih _ _ (i + 1) (by omega)).trans (swapN_perm l i _ hc.2 hb₂)
    · rw [selectLoop, dif_neg hc]

/-- Invariant propagation for the selection loop: if every position
before `i` already dominates all positions at or after it, the final
slice is cost-descending up to the top count and its prefix dominates
the rest. -/
theorem selectLoop_prefix_sorted (tc : ℕ) :
    ∀ (fuel : ℕ) (l top : List PVCMetric) (i : ℕ), tc ≤ i + fuel →
      (∀ a b, a < i → a ≤ b → b < l.length → costAt l a ≥ costAt l b) →
      ∀ a b, a < tc → a ≤ b → b < ((selectLoop tc l top i).1).length →
        costAt (selectLoop tc l top i).1 a ≥ costAt (selectLoop tc l top i).1 b := by
  intro fuel
  induction fuel with
  | zero =>
    intro l top i hf hinv a b ha hab hb
    rw [selectLoop, dif_neg (by omega)] at hb ⊢
    exact hinv a b (by omega) hab hb
  | succ n ih =>
    intro l top i hf hinv a b ha hab hb
    by_cases hc : i < tc ∧ i < l.length
    · rw [selectLoop, dif_pos hc] at hb ⊢
      obtain ⟨⟨hmb₁, hmb₂⟩, hge, hall⟩ :=
        maxIdxFrom_spec l l.length (i + 1) i (by omega) hc.2
      have him : i ≤ maxIdxFrom l (i + 1) i := by omega
      refine ih _ _ (i + 1) (by omega) ?_ a b ha hab hb
      intro a₂ b₂ ha₂ hab₂ hb₂
      rw [length_swapN] at hb₂
      rw [costAt_swapN l i _ hc.2 hmb₂ a₂, costAt_swapN l i _ hc.2 hmb₂ b₂]
      by_cases hai : a₂ = i
      · subst hai
        rw [if_pos rfl]
        by_cases hbi : b₂ = a₂
        · subst hbi
          rw [if_pos rfl]
        · rw [if_neg hbi]
          by_cases hbm : b₂ = maxIdxFrom l (a₂ + 1) a₂
          · rw [if_pos hbm]
            exact hge
          · rw [if_neg hbm]
            exact hall b₂ (by omega) hb₂
      · have hai' : a₂ < i := by omega
        rw [if_neg hai, if_neg (by omega : ¬ a₂ = maxIdxFrom l (i + 1) i)]
        by_cases hbi : b₂ = i
        · rw [if_pos hbi]
          exact hinv a₂ _ hai' (by omega) hmb₂
        · rw [if_neg hbi]
          by_cases hbm : b₂ = maxIdxFrom l (i + 1) i
          · rw [if_pos hbm]
            exact hinv a₂ i hai' (by omega) hc.2
          · rw [if_neg hbm]
            exact hinv a₂ b₂ hai' hab₂ hb₂
    · rw [selectLoop, dif_neg hc] at hb ⊢
      have hb' : b < l.length := hb
      rcases not_and_or.mp hc with h | h
      · exact hinv a b (by omega) hab hb'
      · exact hinv a b (by omega) hab hb'

/-- The aggregation pass returns the metrics with both cost fields
stamped, in order. -/
theorem summaryPass_snd (now : ℚ) (provider : String) :
    ∀ (ms : List PVCMetric) (s : CostSummary),
      (summaryPass now provider ms s).2 = ms.map (stampCosts provider) := by
  intro ms
  induction ms with
  | nil => intro s; rfl
  | cons m rest ih =>
    intro s
    simp [summaryPass, stampCosts, ih]

/-- C10: GenerateSummary mutates the caller's slice: afterwards the
slice is a permutation of the input with the monthly-cost and
hourly-cost fields overwritten on every element, its first min(10, n)
positions are in descending monthly-cost order and dominate all later
positions, and on a concrete input (cheap resource before expensive one)
the original element order is not preserved. -/
theorem generateSummary_mutates_and_sorts :
    (∀ (now : ℚ) (metrics : List PVCMetric) (provider : String),
      ((generateSummary now metrics provider).2).Perm
        (metrics.map (stampCosts provider)) ∧
      ((generateSummary now metrics provider).2).length = metrics.length ∧
      (∀ a b, a < (if metrics.length < 10 then metrics.length else 10) → a ≤ b →
        b < ((generateSummary now metrics provider).2).length →
        costAt (generateSummary now metrics provider).2 a ≥
          costAt (generateSummary now metrics provider).2 b)) ∧
    (generateSummary 0 [summaryA, summaryB] "aws").2 ≠
      [stampCosts "aws" summaryA, stampCosts "aws" summaryB] := by
  have main : ∀ (now : ℚ) (metrics : List PVCMetric) (provider : String),
      ((generateSummary now metrics provider).2).Perm
        (metrics.map (stampCosts provider)) ∧
      ((generateSummary now metrics provider).2).length = metrics.length ∧
      (∀ a b, a < (if metrics.length < 10 then metrics.length else 10) → a ≤ b →
        b < ((generateSummary now metrics provider).2).length →
        costAt (generateSummary now metrics provider).2 a ≥
          costAt (generateSummary now metrics provider).2 b) := by
    intro now metrics provider
    have hgen : (generateSummary now metrics provider).2 =
        (selectLoop
          (if (metrics.map (stampCosts provider)).length < 10
            then (metrics.map (stampCosts provider)).length else 10)
          (metrics.map (stampCosts provider)) [] 0).1 := by
      simp only [generateSummary, summaryPass_snd]
    have hlen : (metrics.map (stampCosts provider)).length = metrics.length :=
      List.length_map _ _
    have hperm : ((generateSummary now metrics provider).2).Perm
        (metrics.map (stampCosts provider)) := by
      rw [hgen]
      exact selectLoop_fst_perm _
        (if (metrics.map (stampCosts provider)).length < 10
          then (metrics.map (stampCosts provider)).length else 10) _ [] 0 (by omega)
    refine ⟨hperm, by rw [hperm.length_eq, hlen], ?_⟩
    intro a b ha hab hb
    rw [hgen] at hb ⊢
    rw [← hlen] at ha
    exact selectLoop_prefix_sorted _
      (if (metrics.map (stampCosts provider)).length < 10
        then (metrics.map (stampCosts provider)).length else 10) _ [] 0 (by omega)
      (fun a₂ b₂ ha₂ _ _ => absurd ha₂ (by omega)) a b ha hab hb
  refine ⟨main, ?_⟩
  intro heq
  obtain ⟨-, hlen, hsort⟩ := main 0 [summaryA, summaryB] "aws"
  have hb1 : (1 : ℕ) < ((generateSummary 0 [summaryA, summaryB] "aws").2).length := by
    rw [hlen]
    norm_num
  have h01 := hsort 0 1 (by norm_num) (by omega) hb1
  rw [heq] at h01
  have hA : stampCosts "aws" summaryA =
      { summaryA with monthlyCost := 8, hourlyCost := 1/90 } := by
    simp [stampCosts, calculatePVCCost, getPrice, pricingData, mapLookup, summaryA,
      emptyMetric, PVCMetric.totalIOPS]
    norm_num
  have hB : stampCosts "aws" summaryB =
      { summaryB with monthlyCost := 20, hourlyCost := 1/36 } := by
    simp [stampCosts, calculatePVCCost, getPrice, pricingData, mapLookup, summaryB,
      emptyMetric, PVCMetric.totalIOPS]
    norm_num
  rw [hA, hB] at h01
  simp [costAt, nthD] at h01
  norm_num at h01

end CloudVault
